import Mathlib

/-!
Verification development for the Snap-Speak repository.

The embedding covers, faithfully to the TypeScript sources:
  * the AI response interpreter `analyzeImage` (services/chromeAiService.ts):
    fence stripping via the regex /```json\s*([\s\S]*?)\s*```/, JSON parsing,
    structural validation and the catch-block error routing;
  * the UI analysis state machine of the ImageAnalyzer component
    (`processAnalysis`, `resetState`), modelled as explicit state passing
    with an effect log for URL revocations and speech cancellations;
  * the CameraCapture effect lifecycle (`stopCamera`, the isOpen effect);
  * the speech util `speak` (utils/speech.ts).

JavaScript machine values are modelled as follows: JSON values as the
inductive `JSValue` (numbers keep only their signed mantissa digits, which
fully determines JavaScript truthiness, the only way the code inspects a
number); thrown values as `JSError`; platform capabilities (window.ai,
window.speechSynthesis, getUserMedia) as explicit parameters; asynchronous
completions as events applied to the state in an arbitrary order.
-/

/-- A decoded JSON value, the result of the platform JSON.parse.
Object fields are kept in textual order; lookups take the last
occurrence of a key, matching JavaScript semantics for duplicates.
The `num` constructor stores the signed mantissa (integer and fraction
digits); the exponent is dropped since it never changes whether the
value is zero, the only property of numbers the code observes. -/
inductive JSValue where
  | null
  | bool (b : Bool)
  | num (m : Int)
  | str (s : String)
  | arr (elems : List JSValue)
  | obj (fields : List (String × JSValue))

/-- A thrown JavaScript value as far as the analyzed code distinguishes
them: SyntaxError (thrown by JSON.parse), TypeError (thrown by property
access on null/undefined), and a plain Error with a message. -/
inductive JSError where
  | syntaxError (msg : String)
  | typeError (msg : String)
  | error (msg : String)
deriving DecidableEq

/-- Message of the Error thrown by the structural validation in
analyzeImage (chromeAiService.ts line 84). -/
def invalidFormatMsg : String := "AI returned an invalid response format."

/-- User-facing message substituted for a SyntaxError by the catch block
in analyzeImage (chromeAiService.ts line 93). -/
def couldNotUnderstandMsg : String :=
  "The AI returned a response that we couldn\x27t understand. Please try again."

/-- Generic message the ImageAnalyzer state machine uses for thrown values
that are not Error instances (ImageAnalyzer line 134). -/
def genericUnknownMsg : String := "An unknown error occurred."

/-- Last-occurrence-wins lookup in a JavaScript object field list. -/
def getField (fields : List (String × JSValue)) (k : String) : Option JSValue :=
  fields.foldl (fun acc p => if p.1 = k then some p.2 else acc) none

/-- JavaScript property access `v.k` for non-null `v`: a field of an
object, `undefined` (modelled as `none`) on every other value. Access on
`null` throws and is handled separately by the caller. -/
def getProp (v : JSValue) (k : String) : Option JSValue :=
  match v with
  | .obj fs => getField fs k
  | _ => none

/-- JavaScript falsiness of a possibly-undefined value, as tested by
`!result.description`: undefined, null, false, 0 and "" are falsy. -/
def jsFalsyOpt (v : Option JSValue) : Bool :=
  match v with
  | none => true
  | some .null => true
  | some (.bool b) => !b
  | some (.num m) => m = 0
  | some (.str s) => s.isEmpty
  | some (.arr _) => false
  | some (.obj _) => false

/-- Array.isArray on a possibly-undefined value. -/
def isArrayOpt (v : Option JSValue) : Bool :=
  match v with
  | some (.arr _) => true
  | _ => false

/-! ## JSON parser (model of the platform JSON.parse) -/

/-- JSON whitespace accepted by JSON.parse between tokens. -/
def jsonWS (c : Char) : Bool :=
  c = ' ' || c = '\t' || c = '\n' || c = '\r'

/-- Drop leading JSON whitespace. -/
def skipJsonWS (l : List Char) : List Char := l.dropWhile jsonWS

/-- Is the character an ASCII decimal digit. -/
def isDigitChar (c : Char) : Bool := '0' ≤ c && c ≤ '9'

/-- Value of a hexadecimal digit, if any. -/
def hexVal (c : Char) : Option Nat :=
  if '0' ≤ c && c ≤ '9' then some (c.toNat - 48)
  else if 'a' ≤ c && c ≤ 'f' then some (c.toNat - 87)
  else if 'A' ≤ c && c ≤ 'F' then some (c.toNat - 55)
  else none

/-- Read exactly four hex digits, returning their value and the rest. -/
def parseHex4 (l : List Char) : Option (Nat × List Char) :=
  match l with
  | a :: b :: c :: d :: rest =>
    match hexVal a, hexVal b, hexVal c, hexVal d with
    | some x, some y, some z, some w => some (((x * 16 + y) * 16 + z) * 16 + w, rest)
    | _, _, _, _ => none
  | _ => none

/-- Decimal value of a digit list. -/
def digitsToNat (ds : List Char) : Nat :=
  ds.foldl (fun a c => a * 10 + (c.toNat - 48)) 0

/-- Fraction part of a JSON number: either absent, or a dot followed by
at least one digit. Returns the fraction digits and the rest. -/
def parseFrac (l : List Char) : Option (List Char × List Char) :=
  match l with
  | '.' :: rest =>
    match List.span isDigitChar rest with
    | ([], _) => none
    | (ds, r) => some (ds, r)
  | _ => some ([], l)

/-- Exponent part of a JSON number: either absent, or e/E, an optional
sign and at least one digit. Its value is dropped (it cannot change
whether the number is zero). Returns the rest. -/
def parseExp (l : List Char) : Option (List Char) :=
  match l with
  | c :: rest =>
    if c = 'e' || c = 'E' then
      let l2 :=
        match rest with
        | '+' :: r => r
        | '-' :: r => r
        | _ => rest
      match List.span isDigitChar l2 with
      | ([], _) => none
      | (_, r) => some r
    else some l
  | [] => some l

/-- A JSON number: optional minus, an integer part without leading
zeros, optional fraction and exponent. Produces the signed mantissa. -/
def parseNumber (l : List Char) : Option (Int × List Char) :=
  let p : Bool × List Char :=
    match l with
    | '-' :: rest => (true, rest)
    | _ => (false, l)
  let intPart : Option (List Char × List Char) :=
    match p.2 with
    | '0' :: rest => some (['0'], rest)
    | c :: rest => if isDigitChar c then some (List.span isDigitChar (c :: rest)) else none
    | [] => none
  match intPart with
  | none => none
  | some (ids, r1) =>
    match parseFrac r1 with
    | none => none
    | some (fds, r2) =>
      match parseExp r2 with
      | none => none
      | some r3 =>
        let m : Nat := digitsToNat (ids ++ fds)
        some (if p.1 then -(m : Int) else (m : Int), r3)

/-- Body of a JSON string after the opening quote: ordinary characters,
escapes, and the closing quote. Returns the content characters and the
rest of the input after the closing quote. -/
def parseStringRest : Nat → List Char → Option (List Char × List Char)
  | 0, _ => none
  | _, [] => none
  | f + 1, c :: rest =>
    if c = '"' then some ([], rest)
    else if c = '\\' then
      match rest with
      | [] => none
      | e :: rest2 =>
        if e = '"' then (parseStringRest f rest2).map (fun q => ('"' :: q.1, q.2))
        else if e = '\\' then (parseStringRest f rest2).map (fun q => ('\\' :: q.1, q.2))
        else if e = '/' then (parseStringRest f rest2).map (fun q => ('/' :: q.1, q.2))
        else if e = 'b' then (parseStringRest f rest2).map (fun q => ('\x08' :: q.1, q.2))
        else if e = 'f' then (parseStringRest f rest2).map (fun q => ('\x0c' :: q.1, q.2))
        else if e = 'n' then (parseStringRest f rest2).map (fun q => ('\n' :: q.1, q.2))
        else if e = 'r' then (parseStringRest f rest2).map (fun q => ('\r' :: q.1, q.2))
        else if e = 't' then (parseStringRest f rest2).map (fun q => ('\t' :: q.1, q.2))
        else if e = 'u' then
          match parseHex4 rest2 with
          | some (n, rest3) => (parseStringRest f rest3).map (fun q => (Char.ofNat n :: q.1, q.2))
          | none => none
        else none
    else if c.toNat < 32 then none
    else (parseStringRest f rest).map (fun q => (c :: q.1, q.2))

mutual

/-- A JSON value, fuel-indexed recursive descent. -/
def parseVal : Nat → List Char → Option (JSValue × List Char)
  | 0, _ => none
  | f + 1, l =>
    match skipJsonWS l with
    | [] => none
    | c :: rest =>
      if c = 'n' then
        if "ull".toList.isPrefixOf rest then some (.null, rest.drop 3) else none
      else if c = 't' then
        if "rue".toList.isPrefixOf rest then some (.bool true, rest.drop 3) else none
      else if c = 'f' then
        if "alse".toList.isPrefixOf rest then some (.bool false, rest.drop 4) else none
      else if c = '"' then
        (parseStringRest f rest).map (fun q => (.str (String.mk q.1), q.2))
      else if c = '\x5b' then
        match skipJsonWS rest with
        | '\x5d' :: rest2 => some (.arr [], rest2)
        | rest1 => (parseElems f rest1).map (fun q => (.arr q.1, q.2))
      else if c = '\x7b' then
        match skipJsonWS rest with
        | '\x7d' :: rest2 => some (.obj [], rest2)
        | rest1 => (parseMembers f rest1).map (fun q => (.obj q.1, q.2))
      else if c = '-' || isDigitChar c then
        (parseNumber (c :: rest)).map (fun q => (.num q.1, q.2))
      else none

/-- Comma-separated array elements up to and including the closing
bracket. -/
def parseElems : Nat → List Char → Option (List JSValue × List Char)
  | 0, _ => none
  | f + 1, l =>
    match parseVal f l with
    | none => none
    | some (v, rest) =>
      match skipJsonWS rest with
      | ',' :: rest2 => (parseElems f rest2).map (fun q => (v :: q.1, q.2))
      | '\x5d' :: rest2 => some ([v], rest2)
      | _ => none

/-- Comma-separated object members up to and including the closing
brace. -/
def parseMembers : Nat → List Char → Option (List (String × JSValue) × List Char)
  | 0, _ => none
  | f + 1, l =>
    match skipJsonWS l with
    | '"' :: rest =>
      match parseStringRest f rest with
      | none => none
      | some (key, rest2) =>
        match skipJsonWS rest2 with
        | ':' :: rest3 =>
          match parseVal f rest3 with
          | none => none
          | some (v, rest4) =>
            match skipJsonWS rest4 with
            | ',' :: rest5 => (parseMembers f rest5).map (fun q => ((String.mk key, v) :: q.1, q.2))
            | '\x7d' :: rest5 => some ([(String.mk key, v)], rest5)
            | _ => none
        | _ => none
    | _ => none

end

/-- Model of the platform JSON.parse: parse one value, allow trailing
whitespace only; any other outcome is a SyntaxError (here, the message
string of the error). -/
def jsonParse (s : String) : Except String JSValue :=
  let l := s.toList
  match parseVal (2 * l.length + 2) l with
  | none => .error "Unexpected token"
  | some (v, rest) =>
    if (skipJsonWS rest).isEmpty then .ok v
    else .error "Unexpected non-whitespace character after JSON"

/-! ## Fence stripping (chromeAiService.ts lines 76-78)

The source cleans the response with the regular expression
/```json\s*([\s\S]*?)\s*```/ : the match starts at the first occurrence of
the literal "```json" from which the rest of the pattern can succeed; the
greedy \s* then skips the whitespace run after it; the lazy group ends at
the first position from which whitespace followed by "```" appears.
`matchFence` implements exactly this search. -/

/-- The characters the JavaScript regex class \s matches (whitespace,
line terminators and the Unicode space separators). -/
def wsChar (c : Char) : Bool :=
  c = ' ' || c = '\t' || c = '\n' || c = '\r' || c = '\x0b' || c = '\x0c' ||
  c = ' ' || c = ' ' || (0x2000 ≤ c.toNat && c.toNat ≤ 0x200a) ||
  c = ' ' || c = ' ' || c = ' ' || c = ' ' ||
  c = '　' || c = '﻿'

/-- The opening delimiter of the fenced block. -/
def openFence : List Char := "```json".toList

/-- The closing delimiter of the fenced block. -/
def closeFence : List Char := "```".toList

/-- The backtick character. -/
def backtickChar : Char := Char.ofNat 96

/-- Does \s*``` match at this position (skipping any run of whitespace,
then the closing delimiter)? -/
def closesAt : List Char → Bool
  | [] => false
  | c :: rest => closeFence.isPrefixOf (c :: rest) || (wsChar c && closesAt rest)

/-- Drop a leading run of \s characters. -/
def skipWS : List Char → List Char
  | [] => []
  | c :: rest => if wsChar c then skipWS rest else c :: rest

/-- The lazy group: the characters before the first position from which
\s*``` matches; `none` when no closing delimiter follows. -/
def takeBody : List Char → Option (List Char)
  | [] => none
  | c :: rest =>
    if closesAt (c :: rest) then some []
    else (takeBody rest).map (fun b => c :: b)

/-- The regex search: at each position, try to match "```json", the
greedy whitespace run and the lazy group; on failure resume one
character further, exactly as the backtracking engine does. -/
def matchFence : List Char → Option (List Char)
  | [] => none
  | c :: rest =>
    if openFence.isPrefixOf (c :: rest) then
      match takeBody (skipWS ((c :: rest).drop 7)) with
      | some body => some body
      | none => matchFence rest
    else matchFence rest

/-- `const cleanText = match ? match[1] : responseText` on characters. -/
def cleanTextL (l : List Char) : List Char := (matchFence l).getD l

/-- The cleaned response text that analyzeImage hands to JSON.parse. -/
def cleanText (s : String) : String := String.mk (cleanTextL s.toList)

/-! ## analyzeImage (chromeAiService.ts lines 64-97) -/

/-- Structural validation and the implicit property accesses of
chromeAiService.ts lines 80-85: accessing `.description` on a null
parse result throws a TypeError; otherwise the code throws the
invalid-format Error when `result.description` is falsy or
`result.keywords` is not an array, and returns the value unchanged
when both checks pass. -/
def validateResult (v : JSValue) : Except JSError JSValue :=
  match v with
  | .null => .error (.typeError "Cannot read properties of null")
  | w =>
    if jsFalsyOpt (getProp w "description") then .error (.error invalidFormatMsg)
    else if !isArrayOpt (getProp w "keywords") then .error (.error invalidFormatMsg)
    else .ok w

/-- The catch block of analyzeImage (lines 89-96): a SyntaxError is
replaced by the user-friendly could-not-understand Error; every other
thrown value is rethrown unchanged. -/
def rethrowCaught (e : JSError) : JSError :=
  match e with
  | .syntaxError _ => .error couldNotUnderstandMsg
  | e => e

/-- The production path of analyzeImage applied to the capability's
response text: clean the text, JSON.parse it, validate, and route
errors through the catch block. -/
def analyzeImageProd (responseText : String) : Except JSError JSValue :=
  match jsonParse (cleanText responseText) with
  | .error m => .error (rethrowCaught (.syntaxError m))
  | .ok v => (validateResult v).mapError rethrowCaught

/-- The fixed mock response of getMockAIResponse (lines 18-37), as the
JSON value it resolves with. -/
def mockResponseValue : JSValue :=
  .obj [("description", .str "A cute, fluffy Corgi puppy is sitting on a vibrant green grass field."),
        ("keywords", .arr [.str "corgi", .str "puppy", .str "grass", .str "dog", .str "cute"]),
        ("phonetics", .obj [("corgi", .str "kor-gee"), ("puppy", .str "puh-pee"),
                            ("grass", .str "gras"), ("dog", .str "dog"), ("cute", .str "kyoot")])]

/-- The fixed instructional prompt (lines 40-62). -/
def fixedPrompt : String :=
  "\nYou are a language learning assistant. Your task is to analyze an image and provide educational content for an English language learner.\n\nAnalyze the image and respond strictly with a JSON object that has three keys:\n1. \"description\": A short, simple, descriptive sentence about the main subject of the image.\n2. \"keywords\": An array of 3-5 strings, where each string is a key noun or object visible in the image. The words should be in lowercase.\n3. \"phonetics\": A JSON object where keys are the words from the \"keywords\" array and values are their simple, easy-to-read phonetic spellings (e.g., \"hello\" -> \"heh-loh\").\n\nExample response:\n\x7b\n  \"description\": \"A fluffy white cat is sleeping on a blue sofa.\",\n  \"keywords\": [\"cat\", \"sofa\", \"sleeping\", \"white\", \"fluffy\"],\n  \"phonetics\": \x7b\n    \"cat\": \"kat\",\n    \"sofa\": \"so-fa\",\n    \"sleeping\": \"sleep-ing\",\n    \"white\": \"wite\",\n    \"fluffy\": \"fluh-fee\"\n  \x7d\n\x7d\n\nDo not include any text or formatting outside of the JSON object.\n"

/-- The window.ai capability: the availability probe result and the
text completion returned for a given full prompt. -/
structure AICap where
  canCreateTextSession : String
  promptFn : String → String

/-- Observable side effects of one analyzeImage call: whether the mock
advisory was logged (console.warn in getMockAIResponse) and the
artificial setTimeout delay in milliseconds before resolution. -/
structure AnalyzeEffects where
  mockAdvisoryLogged : Bool
  artificialDelayMs : Nat
deriving DecidableEq

/-- analyzeImage (lines 64-97): with the capability absent or probing
"no", resolve with the fixed mock after the artificial delay and log
the advisory; otherwise invoke the capability on the concatenated
prompt and run the production interpretation. -/
def analyzeImage (ai : Option AICap) (base64ImageData : String) :
    Except JSError JSValue × AnalyzeEffects :=
  match ai with
  | none => (.ok mockResponseValue, ⟨true, 1200⟩)
  | some cap =>
    if cap.canCreateTextSession = "no" then (.ok mockResponseValue, ⟨true, 1200⟩)
    else (analyzeImageProd (cap.promptFn (fixedPrompt ++ "\n\nIMAGE_BASE64:" ++ base64ImageData)),
          ⟨false, 0⟩)

/-! ## Speech Announcer (utils/speech.ts) -/

/-- Observable effects of one speak call: the advisory warning, the
number of cancel calls issued, and the utterances started (text and
language, in order; rate and pitch are the constant 1.0 and are not
modelled). -/
structure SpeechEffects where
  warned : Bool
  cancels : Nat
  utterances : List (String × String)
deriving DecidableEq

/-- speak(text, lang) (speech.ts lines 6-21): with the capability absent
it warns and returns; otherwise it cancels ongoing speech and then
starts the new utterance. The second component is the thrown error, if
any: speak never throws. -/
def speak (hasSpeechSynthesis : Bool) (text lang : String) :
    SpeechEffects × Option JSError :=
  if !hasSpeechSynthesis then (⟨true, 0, []⟩, none)
  else (⟨false, 1, [(text, lang)]⟩, none)

/-! ## Analysis state machine (ImageAnalyzer, part of components) -/

/-- The four UI statuses (types.ts line 7). -/
inductive ProcessingStatus where
  | idle
  | processing
  | success
  | error
deriving DecidableEq

/-- The React state of ImageAnalyzer that the claims concern. -/
structure AnalyzerState where
  imagePreviewUrl : Option String
  status : ProcessingStatus
  result : Option JSValue
  error : Option String

/-- The analyzer state together with the externally observable resource
effects: which object URLs were revoked and how many times speech
synthesis was cancelled. -/
structure World where
  st : AnalyzerState
  revokedUrls : List String
  speechCancels : Nat

/-- Model of `u.startsWith("blob:")` on the character list of the
string (String.startsWith itself, character for character). -/
def startsWithBlob (u : String) : Bool := "blob:".toList.isPrefixOf u.toList

/-- URL.revokeObjectURL step of resetState (lines 160-162): performed
only on a full reset while a preview URL starting with "blob:" is
held. -/
def revokeStep (full : Bool) (pv : Option String) (acc : List String) : List String :=
  match pv with
  | some u => if full && startsWithBlob u then u :: acc else acc
  | none => acc

/-- Message of the TypeError thrown by `window.speechSynthesis.cancel()`
when the platform has no speechSynthesis object. -/
def speechCancelCrashMsg : String := "Cannot read properties of undefined"

/-- resetState(fullReset) (ImageAnalyzer lines 159-170), in source
order: revoke a held blob preview URL on a full reset, clear the
preview on a full reset, set status idle, clear result and error, and
finally call `window.speechSynthesis.cancel()` with no capability
guard. The second component is the error thrown by that last call when
the platform lacks speechSynthesis; the state updates before it still
take effect. -/
def resetStateW (hasSpeechSynthesis full : Bool) (w : World) : World × Option JSError :=
  let revoked := revokeStep full w.st.imagePreviewUrl w.revokedUrls
  let preview := if full then none else w.st.imagePreviewUrl
  let st : AnalyzerState := ⟨preview, .idle, none, none⟩
  if hasSpeechSynthesis then
    (⟨st, revoked, w.speechCancels + 1⟩, none)
  else
    (⟨st, revoked, w.speechCancels⟩, some (.typeError speechCancelCrashMsg))

/-- The synchronous prefix of processAnalysis (lines 124-127): partial
reset, store the preview, set status processing. The asynchronous
analyzeImage call is issued here; its completion is a separate event.
The platform is assumed to have speechSynthesis. -/
def startAnalysis (previewUrl : String) (w : World) : World :=
  let w1 := (resetStateW true false w).1
  ⟨⟨some previewUrl, .processing, w1.st.result, w1.st.error⟩, w1.revokedUrls, w1.speechCancels⟩

/-- Outcome of one asynchronous analyzeImage call. -/
inductive Outcome where
  | ok (r : JSValue)
  | fail (e : JSError)

/-- The message stored by the catch arm of processAnalysis (line 134):
the thrown value's message when it is an Error instance; all modelled
thrown values are Error instances and carry one. -/
def errorMessageOf : JSError → String
  | .syntaxError m => m
  | .typeError m => m
  | .error m => m

/-- The completion continuations of processAnalysis (lines 128-137),
applied when the awaited analyzeImage settles: on success store the
result and set status success; on failure store the message and set
status error. There is no generation token, so the update is applied
unconditionally, whatever happened since the call started. -/
def applyCompletion (o : Outcome) (w : World) : World :=
  match o with
  | .ok r => ⟨⟨w.st.imagePreviewUrl, .success, some r, w.st.error⟩, w.revokedUrls, w.speechCancels⟩
  | .fail e => ⟨⟨w.st.imagePreviewUrl, .error, w.st.result, some (errorMessageOf e)⟩,
                w.revokedUrls, w.speechCancels⟩

/-- The events the UI event loop can deliver to the analyzer state. -/
inductive AnalyzerEv where
  | start (previewUrl : String)
  | complete (o : Outcome)
  | reset (full : Bool)

/-- One event applied to the state. -/
def stepEv (w : World) (e : AnalyzerEv) : World :=
  match e with
  | .start p => startAnalysis p w
  | .complete o => applyCompletion o w
  | .reset b => (resetStateW true b w).1

/-- The state on first render. -/
def initialWorld : World := ⟨⟨none, .idle, none, none⟩, [], 0⟩

/-- The state after a sequence of events from the initial state. -/
def runEvents (es : List AnalyzerEv) : World := es.foldl stepEv initialWorld

/-- The states reachable when analyses are serial: each started
interpretation completes before anything else happens, so a start and
its completion form one atomic step. -/
inductive SerialReach : World → Prop
  | init : SerialReach initialWorld
  | run (w : World) (p : String) (o : Outcome) :
      SerialReach w → SerialReach (applyCompletion o (startAnalysis p w))
  | reset (w : World) (b : Bool) :
      SerialReach w → SerialReach ((resetStateW true b w).1)

/-- The spec invariant of section 3: result is non-null exactly in
status success, error is non-null exactly in status error. -/
def statusInvariant (s : AnalyzerState) : Prop :=
  (s.result.isSome = true ↔ s.status = .success) ∧
  (s.error.isSome = true ↔ s.status = .error)

instance (s : AnalyzerState) : Decidable (statusInvariant s) := by
  unfold statusInvariant; infer_instance

/-! ## Camera capture lifecycle (CameraCapture component) -/

/-- The camera-relevant state of a CameraCapture instance: the stream
currently held in streamRef, the set of acquired streams whose tracks
have not been stopped, the number of getUserMedia requests still in
flight, and a fresh-id counter. -/
structure CamWorld where
  streamRef : Option Nat
  live : List Nat
  pending : Nat
  nextId : Nat
deriving DecidableEq

/-- stopCamera (lines 18-23): stop every track of the stream held in
streamRef, if any, and clear the ref. -/
def stopCamera (w : CamWorld) : CamWorld :=
  match w.streamRef with
  | some s => ⟨none, w.live.erase s, w.pending, w.nextId⟩
  | none => w

/-- Events of the isOpen effect (lines 25-66): a change of the isOpen
prop re-runs the effect (React first runs the previous cleanup, which
is stopCamera, then the body: startCamera issues a getUserMedia request
when opening, stopCamera when closing); a pending getUserMedia request
resolving stores the new stream into streamRef unconditionally (line
33); unmounting runs the cleanup once. -/
inductive CamEvent where
  | setOpen (b : Bool)
  | resolveStream
  | unmount

/-- One camera lifecycle event applied to the state. -/
def camStep (w : CamWorld) (e : CamEvent) : CamWorld :=
  match e with
  | .setOpen b =>
    let w1 := stopCamera w
    if b then ⟨w1.streamRef, w1.live, w1.pending + 1, w1.nextId⟩
    else stopCamera w1
  | .resolveStream =>
    if w.pending = 0 then w
    else ⟨some w.nextId, w.nextId :: w.live, w.pending - 1, w.nextId + 1⟩
  | .unmount => stopCamera w

/-- The camera state after a sequence of lifecycle events, starting
with no stream, nothing live and nothing pending. -/
def camRun (es : List CamEvent) : CamWorld := es.foldl camStep ⟨none, [], 0, 0⟩

/-! ## Helper lemmas -/

/-- On a non-null value, validateResult is just the two-condition check
of chromeAiService.ts line 83. -/
theorem validateResult_notNull (v : JSValue) (h : v ≠ JSValue.null) :
    validateResult v =
      (if jsFalsyOpt (getProp v "description") then .error (.error invalidFormatMsg)
       else if !isArrayOpt (getProp v "keywords") then .error (.error invalidFormatMsg)
       else .ok v) := by
  cases v <;> first | exact absurd rfl h | rfl

/-- When the cleaned response parses, analyzeImage is the validation
composed with the catch block. -/
theorem analyzeImageProd_parse_ok (t : String) (v : JSValue)
    (hp : jsonParse (cleanText t) = .ok v) :
    analyzeImageProd t = (validateResult v).mapError rethrowCaught := by
  unfold analyzeImageProd
  rw [hp]

/-! ## Claim theorems -/

/-- C1: refuted on the code. processAnalysis carries no generation
token, so when two captures are submitted in quick succession and the
first interpretation completes after the second, the superseded first
completion is applied over the newer status: the final observed result
is the first call's, not the second's. -/
theorem c1_stale_completion_overwrites :
    (runEvents [.start "p1", .start "p2",
        .complete (.ok (JSValue.str "second")),
        .complete (.ok (JSValue.str "first"))]).st.result
      = some (JSValue.str "first") ∧
    (runEvents [.start "p1", .start "p2",
        .complete (.ok (JSValue.str "second")),
        .complete (.ok (JSValue.str "first"))]).st.status
      = ProcessingStatus.success :=
  ⟨rfl, rfl⟩

/-- C3 counterexample: the response text "null" parses as JSON, and its
decoded value (null) certainly lacks a non-empty description, yet
analyzeImage fails with a TypeError from the property access
`result.description`, not with the invalid-response-format
InterpretationError. -/
theorem c3_null_response_counterexample :
    jsonParse (cleanText "null") = .ok JSValue.null ∧
    jsFalsyOpt (getProp JSValue.null "description") = true ∧
    analyzeImageProd "null" = .error (.typeError "Cannot read properties of null") ∧
    JSError.typeError "Cannot read properties of null" ≠ JSError.error invalidFormatMsg :=
  ⟨rfl, rfl, rfl, by decide⟩

/-- C3 as amended: for every response that parses as JSON to a non-null
value whose description field is falsy (absent, empty, null, 0 or
false) or whose keywords field is not an array, analyzeImage fails with
the plain Error carrying the invalid-response-format message — which the
catch block rethrows unchanged, never as a parse error. -/
theorem c3_invalid_structure_error (t : String) (v : JSValue)
    (hp : jsonParse (cleanText t) = .ok v) (hnn : v ≠ JSValue.null)
    (hbad : jsFalsyOpt (getProp v "description") = true ∨
            isArrayOpt (getProp v "keywords") = false) :
    analyzeImageProd t = .error (.error invalidFormatMsg) := by
  rw [analyzeImageProd_parse_ok t v hp, validateResult_notNull v hnn]
  rcases hbad with hb | hb
  · rw [hb]; rfl
  · cases hd : jsFalsyOpt (getProp v "description")
    · rw [hb]; rfl
    · rfl

/-- C3 witness: a decoded object with no description at all is rejected
with the invalid-response-format message. -/
theorem c3_invalid_structure_error_witness :
    analyzeImageProd "\x7b\"keywords\":[]\x7d" = .error (.error invalidFormatMsg) :=
  c3_invalid_structure_error "\x7b\"keywords\":[]\x7d"
    (JSValue.obj [("keywords", JSValue.arr [])])
    rfl (fun h => JSValue.noConfusion h) (Or.inl rfl)

/-- C4: a response whose cleaned text is not valid JSON always fails
with the could-not-understand Error, whose message differs both from
the state machine's generic unknown-error message and from the
invalid-format message. -/
theorem c4_unparseable_response (t m : String)
    (hp : jsonParse (cleanText t) = .error m) :
    analyzeImageProd t = .error (.error couldNotUnderstandMsg) ∧
    couldNotUnderstandMsg ≠ genericUnknownMsg ∧
    couldNotUnderstandMsg ≠ invalidFormatMsg := by
  refine ⟨?_, by decide, by decide⟩
  unfold analyzeImageProd
  rw [hp]
  rfl

/-- C4 witness: the spec's own example body "not json". -/
theorem c4_unparseable_response_witness :
    analyzeImageProd "not json" = .error (.error couldNotUnderstandMsg) ∧
    couldNotUnderstandMsg ≠ genericUnknownMsg ∧
    couldNotUnderstandMsg ≠ invalidFormatMsg :=
  c4_unparseable_response "not json" "Unexpected token" rfl

/-- C5 counterexample: with two overlapping analyses completing out of
order (the superseded first call failing after the second call
succeeded), the final state has status success together with a stale
non-null error — the invariant does not survive out-of-order completion
of superseded calls. -/
theorem c5_interleaving_violates_invariant :
    ¬ statusInvariant (runEvents [.start "p1", .start "p2",
        .complete (.fail (JSError.error "boom")),
        .complete (.ok (JSValue.str "r2"))]).st := by
  decide

/-- C5 as amended: the result/error-versus-status invariant holds in
every state reachable while analyses stay serial — each interpretation
completes (successfully or not) before the next capture or reset. -/
theorem c5_serial_invariant (w : World) (h : SerialReach w) :
    statusInvariant w.st := by
  induction h with
  | init => decide
  | run w p o _ _ =>
    cases o <;>
      simp [statusInvariant, applyCompletion, startAnalysis, resetStateW, revokeStep]
  | reset w b _ _ =>
    simp [statusInvariant, resetStateW, revokeStep]

/-- C5 witness: the invariant in the state after one completed
analysis. -/
theorem c5_serial_invariant_witness :
    statusInvariant
      (applyCompletion (.ok (JSValue.str "r")) (startAnalysis "p" initialWorld)).st :=
  c5_serial_invariant _
    (SerialReach.run initialWorld "p" (.ok (JSValue.str "r")) SerialReach.init)

/-- C6: a full reset clears result, error and status, counts one speech
cancellation, throws nothing (speech synthesis present), clears the
preview reference, and — when the held preview is a blob URL, the one
kind of preview backed by a releasable resource — revokes exactly that
URL, using its value from before the reference is cleared. -/
theorem c6_full_reset (w : World) (u : String) :
    (resetStateW true true w).1.st.result = none ∧
    (resetStateW true true w).1.st.error = none ∧
    (resetStateW true true w).1.st.status = ProcessingStatus.idle ∧
    (resetStateW true true w).1.st.imagePreviewUrl = none ∧
    (resetStateW true true w).1.speechCancels = w.speechCancels + 1 ∧
    (resetStateW true true w).2 = none ∧
    (w.st.imagePreviewUrl = some u → startsWithBlob u = true →
      (resetStateW true true w).1.revokedUrls = u :: w.revokedUrls) := by
  refine ⟨rfl, rfl, rfl, rfl, rfl, rfl, ?_⟩
  intro h hb
  simp [resetStateW, revokeStep, h, hb]

/-- C6 witness: a full reset from a success state holding a blob
preview. -/
theorem c6_full_reset_witness :
    (resetStateW true true
        ⟨⟨some "blob:a", ProcessingStatus.success, some (JSValue.str "r"), none⟩, [], 0⟩).1.st.result
      = none ∧
    (resetStateW true true
        ⟨⟨some "blob:a", ProcessingStatus.success, some (JSValue.str "r"), none⟩, [], 0⟩).1.revokedUrls
      = ["blob:a"] := by
  have h := c6_full_reset
    ⟨⟨some "blob:a", ProcessingStatus.success, some (JSValue.str "r"), none⟩, [], 0⟩ "blob:a"
  exact ⟨h.1, h.2.2.2.2.2.2 rfl (by decide)⟩

/-- C7: whenever the window.ai capability is absent or its availability
probe answers "no", analyzeImage resolves successfully with the one
fixed mock result, after the fixed 1200 ms artificial delay, having
logged the development-fallback advisory. -/
theorem c7_mock_fallback (ai : Option AICap) (b64 : String)
    (h : ai = none ∨ ∃ cap, ai = some cap ∧ cap.canCreateTextSession = "no") :
    analyzeImage ai b64 = (.ok mockResponseValue, ⟨true, 1200⟩) := by
  rcases h with h | ⟨cap, h, hn⟩ <;> subst h
  · rfl
  · simp [analyzeImage, hn]

/-- C7 witness: the capability entirely absent. -/
theorem c7_mock_fallback_witness :
    analyzeImage none "" = (.ok mockResponseValue, ⟨true, 1200⟩) :=
  c7_mock_fallback none "" (Or.inl rfl)

/-- C8: refuted on the code. When the capture view closes (or the
component unmounts) while the getUserMedia acquisition is still
pending, the later resolution stores the stream into streamRef with its
tracks running; nothing stops it, so the stream outlives the closed
capture view session. -/
theorem c8_stream_outlives_closed_view :
    (camRun [.setOpen true, .setOpen false, .resolveStream]).live = [0] ∧
    (camRun [.setOpen true, .unmount, .resolveStream]).live = [0] :=
  ⟨rfl, rfl⟩

/-- C9 counterexample: a decoded response whose keywords field is the
empty array passes validation and is returned as a successful
AnalysisResult — non-emptiness of keywords is not enforced. -/
theorem c9_empty_keywords_accepted :
    analyzeImageProd "\x7b\"description\":\"A cat.\",\"keywords\":[]\x7d"
      = .ok (.obj [("description", .str "A cat."), ("keywords", .arr [])]) ∧
    getProp (.obj [("description", .str "A cat."), ("keywords", .arr [])]) "keywords"
      = some (.arr []) :=
  ⟨rfl, rfl⟩

/-- C9 as amended: a successful interpretation only guarantees that the
decoded keywords field is an array — possibly empty — and that the
description field is truthy; the stated 3-5 length and non-emptiness
are not enforced. -/
theorem c9_success_guarantees (t : String) (v : JSValue)
    (h : analyzeImageProd t = .ok v) :
    isArrayOpt (getProp v "keywords") = true ∧
    jsFalsyOpt (getProp v "description") = false := by
  cases hp : jsonParse (cleanText t) with
  | error m =>
    unfold analyzeImageProd at h
    rw [hp] at h
    exact absurd h (by simp)
  | ok w =>
    rw [analyzeImageProd_parse_ok t w hp] at h
    unfold validateResult at h
    split at h
    · simp [Except.mapError] at h
    · split at h
      · simp [Except.mapError] at h
      · split at h
        · simp [Except.mapError] at h
        · simp only [Except.mapError] at h
          cases h
          constructor
          · have hb : ¬ (!isArrayOpt (getProp v "keywords")) = true := by assumption
            simpa using hb
          · have hd : ¬ jsFalsyOpt (getProp v "description") = true := by assumption
            simpa using hd

/-- C9 witness: the successful empty-keywords response again. -/
theorem c9_success_guarantees_witness :
    isArrayOpt (getProp (JSValue.obj [("description", JSValue.str "A cat."),
        ("keywords", JSValue.arr [])]) "keywords") = true ∧
    jsFalsyOpt (getProp (JSValue.obj [("description", JSValue.str "A cat."),
        ("keywords", JSValue.arr [])]) "description") = false :=
  c9_success_guarantees "\x7b\"description\":\"A cat.\",\"keywords\":[]\x7d"
    (JSValue.obj [("description", JSValue.str "A cat."), ("keywords", JSValue.arr [])]) rfl

/-- C10: on a platform with no speech-synthesis capability resetState
throws a TypeError from the unguarded `window.speechSynthesis.cancel()`
call (for either value of fullReset, hence also for the implicit reset
at the start of processAnalysis), while speak on the same platform
checks the capability, logs the advisory and returns without
throwing. -/
theorem c10_reset_not_total_without_speech (full : Bool) (w : World) (t lg : String) :
    (resetStateW false full w).2 = some (JSError.typeError speechCancelCrashMsg) ∧
    (speak false t lg).2 = none ∧
    (speak false t lg).1.warned = true :=
  ⟨rfl, rfl, rfl⟩

/-! ## Lemmas about the fence-stripping regex semantics -/

/-- Skipping whitespace passes over a whitespace run. -/
theorem skipWS_ws_append (ws l : List Char) (h : ∀ c ∈ ws, wsChar c = true) :
    skipWS (ws ++ l) = skipWS l := by
  induction ws with
  | nil => rfl
  | cons c rest ih =>
    have hc : wsChar c = true := h c (List.mem_cons_self c rest)
    show skipWS (c :: (rest ++ l)) = skipWS l
    simp only [skipWS, hc, if_true]
    exact ih (fun d hd => h d (List.mem_cons_of_mem c hd))

/-- A position where the closing delimiter itself starts closes. -/
theorem closesAt_of_isPrefixOf (l : List Char) (h : closeFence.isPrefixOf l = true) :
    closesAt l = true := by
  cases l with
  | nil => exact absurd h (by decide)
  | cons c rest => simp [closesAt, h]

/-- \s*``` matches across a whitespace run that ends at the closing
delimiter. -/
theorem closesAt_ws_close (ws post : List Char) (h : ∀ c ∈ ws, wsChar c = true) :
    closesAt (ws ++ (closeFence ++ post)) = true := by
  induction ws with
  | nil =>
    exact closesAt_of_isPrefixOf _ (List.isPrefixOf_iff_prefix.mpr (List.prefix_append _ _))
  | cons c rest ih =>
    have hc : wsChar c = true := h c (List.mem_cons_self c rest)
    have hr : closesAt (rest ++ (closeFence ++ post)) = true :=
      ih (fun d hd => h d (List.mem_cons_of_mem c hd))
    show closesAt (c :: (rest ++ (closeFence ++ post))) = true
    simp [closesAt, hc, hr]

/-- No position inside a backtick-free body whose last character is not
whitespace can start a \s*``` match. -/
theorem closesAt_notClose (body tail : List Char) (hne : body ≠ [])
    (hnb : ∀ c ∈ body, c ≠ backtickChar)
    (hlast : ∀ c, body.getLast? = some c → wsChar c = false) :
    closesAt (body ++ tail) = false := by
  induction body with
  | nil => exact absurd rfl hne
  | cons c rest ih =>
    have hcb : c ≠ backtickChar := hnb c (List.mem_cons_self c rest)
    have hpf : closeFence.isPrefixOf (c :: (rest ++ tail)) = false := by
      cases hq : closeFence.isPrefixOf (c :: (rest ++ tail)) with
      | false => rfl
      | true =>
        have hq2 := List.isPrefixOf_iff_prefix.mp hq
        rw [show closeFence = backtickChar :: [backtickChar, backtickChar] from rfl,
          List.cons_prefix_cons] at hq2
        exact absurd hq2.1.symm hcb
    show closesAt (c :: (rest ++ tail)) = false
    simp only [closesAt, hpf, Bool.false_or]
    cases rest with
    | nil =>
      have hcw : wsChar c = false := hlast c rfl
      simp [hcw]
    | cons d rest' =>
      have hr : closesAt ((d :: rest') ++ tail) = false :=
        ih (List.cons_ne_nil d rest')
          (fun e he => hnb e (List.mem_cons_of_mem c he))
          (fun e he => hlast e (by rwa [List.getLast?_cons_cons]))
      rw [List.cons_append] at hr
      simp [hr]

/-- The lazy group is empty when the input starts with whitespace
followed by the closing delimiter. -/
theorem takeBody_close (ws2 post : List Char) (h : ∀ c ∈ ws2, wsChar c = true) :
    takeBody (ws2 ++ (closeFence ++ post)) = some [] := by
  have hca := closesAt_ws_close ws2 post h
  cases hx : ws2 ++ (closeFence ++ post) with
  | nil => rw [hx] at hca; exact absurd hca (by decide)
  | cons c rest =>
    rw [hx] at hca
    simp [takeBody, hca]

/-- The lazy group takes exactly a backtick-free body that neither
starts nor ends in whitespace, stopping at the whitespace run before
the closing delimiter. -/
theorem takeBody_body (body ws2 post : List Char)
    (hnb : ∀ c ∈ body, c ≠ backtickChar)
    (hlast : ∀ c, body.getLast? = some c → wsChar c = false)
    (hws2 : ∀ c ∈ ws2, wsChar c = true) :
    takeBody (body ++ (ws2 ++ (closeFence ++ post))) = some body := by
  induction body with
  | nil =>
    rw [List.nil_append]
    exact takeBody_close ws2 post hws2
  | cons c rest ih =>
    have hcl : closesAt ((c :: rest) ++ (ws2 ++ (closeFence ++ post))) = false :=
      closesAt_notClose (c :: rest) _ (List.cons_ne_nil c rest) hnb hlast
    rw [List.cons_append] at hcl
    show takeBody (c :: (rest ++ (ws2 ++ (closeFence ++ post)))) = some (c :: rest)
    simp only [takeBody, hcl]
    cases rest with
    | nil =>
      rw [List.nil_append, takeBody_close ws2 post hws2]
      rfl
    | cons d rest' =>
      rw [ih (fun e he => hnb e (List.mem_cons_of_mem c he))
        (fun e he => hlast e (by rwa [List.getLast?_cons_cons]))]
      rfl

/-- The regex search skips a prefix in which "```json" never occurs. -/
theorem matchFence_skip (pre suffix : List Char)
    (h : ∀ i, i < pre.length →
      openFence.isPrefixOf (List.drop i (pre ++ suffix)) = false) :
    matchFence (pre ++ suffix) = matchFence suffix := by
  induction pre with
  | nil => rfl
  | cons p pre' ih =>
    have h0 : openFence.isPrefixOf (p :: (pre' ++ suffix)) = false := by
      have := h 0 (Nat.succ_pos _)
      simpa using this
    show matchFence (p :: (pre' ++ suffix)) = matchFence suffix
    simp only [matchFence, h0, Bool.false_eq_true, if_false]
    exact ih (fun i hi => by
      have := h (i + 1) (by simpa using Nat.succ_lt_succ hi)
      simpa [List.drop_succ_cons] using this)

/-- At the opening delimiter, the regex returns the lazy group computed
after the greedy whitespace skip. -/
theorem matchFence_open_some (Y body : List Char)
    (htb : takeBody (skipWS Y) = some body) :
    matchFence (openFence ++ Y) = some body := by
  have hpf : openFence.isPrefixOf (openFence ++ Y) = true :=
    List.isPrefixOf_iff_prefix.mpr (List.prefix_append _ _)
  have hdef : matchFence (openFence ++ Y) =
      (if openFence.isPrefixOf (openFence ++ Y) then
        match takeBody (skipWS (List.drop 7 (openFence ++ Y))) with
        | some b => some b
        | none => matchFence (List.drop 1 (openFence ++ Y))
      else matchFence (List.drop 1 (openFence ++ Y))) := rfl
  rw [hdef, if_pos hpf]
  have h7 : List.drop 7 (openFence ++ Y) = Y := by
    rw [show (7 : Nat) = openFence.length from rfl, List.drop_left]
  rw [h7, htb]

/-- A \s*``` match implies the closing delimiter occurs somewhere. -/
theorem closesAt_exists_close (t : List Char) (h : closesAt t = true) :
    ∃ k, closeFence.isPrefixOf (List.drop k t) = true := by
  induction t with
  | nil => exact absurd h (by decide)
  | cons c rest ih =>
    simp only [closesAt] at h
    cases hp : closeFence.isPrefixOf (c :: rest) with
    | true => exact ⟨0, hp⟩
    | false =>
      rw [hp, Bool.false_or, Bool.and_eq_true] at h
      obtain ⟨k, hk⟩ := ih h.2
      exact ⟨k + 1, by simpa [List.drop_succ_cons] using hk⟩

/-- A successful lazy group implies the closing delimiter occurs
somewhere. -/
theorem takeBody_exists_close (t b : List Char) (h : takeBody t = some b) :
    ∃ k, closeFence.isPrefixOf (List.drop k t) = true := by
  induction t generalizing b with
  | nil => exact absurd h (by simp [takeBody])
  | cons c rest ih =>
    simp only [takeBody] at h
    cases hc : closesAt (c :: rest) with
    | true => exact closesAt_exists_close _ hc
    | false =>
      rw [hc] at h
      simp only [Bool.false_eq_true, if_false, Option.map_eq_some'] at h
      obtain ⟨b', hb', _⟩ := h
      obtain ⟨k, hk⟩ := ih b' hb'
      exact ⟨k + 1, by simpa [List.drop_succ_cons] using hk⟩

/-- The greedy whitespace skip is a drop. -/
theorem skipWS_eq_drop (t : List Char) : ∃ m, skipWS t = List.drop m t := by
  induction t with
  | nil => exact ⟨0, rfl⟩
  | cons c rest ih =>
    cases hw : wsChar c with
    | true =>
      obtain ⟨m, hm⟩ := ih
      exact ⟨m + 1, by simpa [skipWS, hw, List.drop_succ_cons] using hm⟩
    | false => exact ⟨0, by simp [skipWS, hw]⟩

/-- When no closing delimiter follows any occurrence of the opening
delimiter, the regex finds no match. -/
theorem matchFence_none_of_noClose (l : List Char)
    (h : ∀ i j, openFence.isPrefixOf (List.drop i l) = true →
      closeFence.isPrefixOf (List.drop (i + 7 + j) l) = false) :
    matchFence l = none := by
  induction l with
  | nil => rfl
  | cons c rest ih =>
    have hshift : ∀ i j, openFence.isPrefixOf (List.drop i rest) = true →
        closeFence.isPrefixOf (List.drop (i + 7 + j) rest) = false := by
      intro i j hp
      have hc := h (i + 1) j (by simpa [List.drop_succ_cons] using hp)
      rw [show i + 1 + 7 + j = (i + 7 + j) + 1 from by omega, List.drop_succ_cons] at hc
      exact hc
    cases hop : openFence.isPrefixOf (c :: rest) with
    | false =>
      simp only [matchFence, hop, Bool.false_eq_true, if_false]
      exact ih hshift
    | true =>
      have htb : takeBody (skipWS (List.drop 7 (c :: rest))) = none := by
        cases htb : takeBody (skipWS (List.drop 7 (c :: rest))) with
        | none => rfl
        | some b =>
          exfalso
          obtain ⟨k, hk⟩ := takeBody_exists_close _ _ htb
          obtain ⟨m, hm⟩ := skipWS_eq_drop (List.drop 7 (c :: rest))
          rw [hm, List.drop_drop, List.drop_drop] at hk
          have hcl := h 0 (m + k) (by simpa using hop)
          rw [show 0 + 7 + (m + k) = 7 + (m + k) from by omega] at hcl
          rw [hcl] at hk
          exact Bool.noConfusion hk
      simp only [matchFence, hop, if_true, htb]
      exact ih hshift

/-- C2: response cleaning behaves as specified. First part: when the
response contains a fenced block — a first occurrence of "```json",
whitespace, a backtick-free body not starting or ending in whitespace,
whitespace, then "```" — the text handed to JSON.parse is exactly that
fenced body. Second part: when no closing delimiter follows any
occurrence of "```json" (in particular when "```json" never occurs),
the whole response text is parsed verbatim. -/
theorem c2_fence_extraction :
    (∀ pre ws1 body ws2 post : List Char,
      (∀ i, i < pre.length →
        openFence.isPrefixOf
          (List.drop i (pre ++ (openFence ++ (ws1 ++ (body ++ (ws2 ++ (closeFence ++ post)))))))
          = false) →
      (∀ c ∈ ws1, wsChar c = true) →
      (∀ c ∈ ws2, wsChar c = true) →
      (∀ c ∈ body, c ≠ backtickChar) →
      (body.head?.all fun c => !wsChar c) = true →
      (body.getLast?.all fun c => !wsChar c) = true →
      cleanTextL (pre ++ (openFence ++ (ws1 ++ (body ++ (ws2 ++ (closeFence ++ post)))))) = body) ∧
    (∀ l : List Char,
      (∀ i, i < l.length → ∀ j, j < l.length →
        openFence.isPrefixOf (List.drop i l) = true →
        closeFence.isPrefixOf (List.drop (i + 7 + j) l) = false) →
      cleanTextL l = l) := by
  constructor
  · intro pre ws1 body ws2 post hpre hws1 hws2 hnb hh hl
    have hhead : ∀ c, body.head? = some c → wsChar c = false := by
      intro c hc
      rw [hc] at hh
      simpa using hh
    have hlast : ∀ c, body.getLast? = some c → wsChar c = false := by
      intro c hc
      rw [hc] at hl
      simpa using hl
    have htb : takeBody (skipWS (ws1 ++ (body ++ (ws2 ++ (closeFence ++ post))))) = some body := by
      rw [skipWS_ws_append ws1 _ hws1]
      cases body with
      | nil =>
        rw [List.nil_append, skipWS_ws_append ws2 _ hws2]
        rw [show skipWS (closeFence ++ post) = closeFence ++ post from rfl]
        have h0 := takeBody_close [] post (fun c hc => absurd hc (List.not_mem_nil c))
        rwa [List.nil_append] at h0
      | cons c rest =>
        have hc0 : wsChar c = false := hhead c rfl
        rw [show skipWS ((c :: rest) ++ (ws2 ++ (closeFence ++ post)))
              = (c :: rest) ++ (ws2 ++ (closeFence ++ post)) from by
          simp [List.cons_append, skipWS, hc0]]
        exact takeBody_body (c :: rest) ws2 post hnb hlast hws2
    unfold cleanTextL
    rw [matchFence_skip pre _ hpre, matchFence_open_some _ body htb]
    rfl
  · intro l h
    have h' : ∀ i j, openFence.isPrefixOf (List.drop i l) = true →
        closeFence.isPrefixOf (List.drop (i + 7 + j) l) = false := by
      intro i j hp
      by_cases hij : i + 7 + j < l.length
      · have hi : i < l.length := by omega
        have hj : j < l.length := by omega
        exact h i hi j hj hp
      · rw [List.drop_eq_nil_of_le (by omega)]
        rfl
    unfold cleanTextL
    rw [matchFence_none_of_noClose l h']
    rfl

/-- C2 witness: a fenced response around the body [1], and a plain
unfenced response. -/
theorem c2_fence_extraction_witness :
    cleanTextL ("ab".toList ++ (openFence ++ (" ".toList ++ ("[1]".toList ++
        ("\n".toList ++ (closeFence ++ "cd".toList)))))) = "[1]".toList ∧
    cleanTextL ("plain".toList) = "plain".toList :=
  ⟨c2_fence_extraction.1 "ab".toList " ".toList "[1]".toList "\n".toList "cd".toList
      (by decide) (by decide) (by decide) (by decide) (by decide) (by decide),
   c2_fence_extraction.2 "plain".toList (by decide)⟩
